import Mathlib

/-!
Shallow embedding of the hairbnyrhi booking backend.

The relational state (services, customers, appointment requests, time
preferences, appointments) is a record of lists of rows; serial ids are
modelled by a counter.  Each HTTP handler that mutates state becomes a
function `State -> Result x State`; a rolled-back transaction returns the
input state unchanged.  Timestamps are milliseconds as `Nat` (JavaScript
`Date.now()`), and `bcrypt.compare` / the JWT HMAC are abstract function
parameters, since they live in external libraries.
-/

namespace HairByRhi

/-- Status column of `appointment_requests`. -/
inductive ReqStatus
  | pending
  | confirmed
  | cancelled
  | rescheduled
  | superseded
  deriving DecidableEq, Repr

/-- Row of the `services` table (columns used by the booking/approval paths). -/
structure Service where
  id : Nat
  name : String
  durationMinutes : Nat
  price : Nat
  maxConcurrent : Nat
  isActive : Bool
  deletedAt : Option Nat
  deriving DecidableEq, Repr

/-- Row of the `customers` table. -/
structure Customer where
  id : Nat
  name : String
  email : String
  phone : String
  deletedAt : Option Nat
  deriving DecidableEq, Repr

/-- Row of the `appointment_requests` table. -/
structure AppointmentRequest where
  id : Nat
  customerId : Nat
  serviceId : Nat
  status : ReqStatus
  customerNotes : Option String
  adminNotes : Option String
  deletedAt : Option Nat
  deriving DecidableEq, Repr

/-- Row of the `request_time_preferences` table. -/
structure TimePreference where
  id : Nat
  requestId : Nat
  preferredDatetime : Nat
  priority : Nat
  isSelected : Bool
  deriving DecidableEq, Repr

/-- Row of the `appointments` table. -/
structure Appointment where
  id : Nat
  requestId : Nat
  preferenceId : Nat
  customerId : Nat
  serviceId : Nat
  scheduledDatetime : Nat
  durationMinutes : Nat
  status : String
  deriving DecidableEq, Repr

/-- The relational state touched by booking/approval, plus a serial-id counter. -/
structure DB where
  services : List Service
  customers : List Customer
  requests : List AppointmentRequest
  preferences : List TimePreference
  appointments : List Appointment
  nextId : Nat
  deriving DecidableEq, Repr

/-- JS `admin_notes` values: Joi allows absent, null, or a string of length <= 1000. -/
def notesOk : Option String → Bool
  | none => true
  | some s => s.length ≤ 1000

/-- JS `notes || null`: the empty string is falsy and becomes null. -/
def jsOrNull : Option String → Option String
  | none => none
  | some s => if s = "" then none else some s

/-- The `SELECT ... FROM appointment_requests ar JOIN customers c ... JOIN services s ...
WHERE ar.id = $1 AND ar.deleted_at IS NULL` lookup shared by the admin handlers:
a row comes back only when the request exists, is not soft-deleted, and its
customer and service rows exist (inner joins). -/
def findRequestJoined (db : DB) (reqId : Nat) :
    Option (AppointmentRequest × Customer × Service) :=
  match db.requests.find? (fun r => r.id == reqId && r.deletedAt == none) with
  | none => none
  | some r =>
    match db.customers.find? (fun c => c.id == r.customerId),
          db.services.find? (fun s => s.id == r.serviceId) with
    | some c, some s => some (r, c, s)
    | _, _ => none

/-- Outcome of `PUT /api/admin/requests/:id/approve`. -/
inductive ApproveResult
  | ok (appt : Appointment)
  | validationFailed
  | requestNotFound
  | stateConflict (current : ReqStatus)
  | invalidPreference
  deriving DecidableEq, Repr

/-- `PUT /api/admin/requests/:id/approve`: validation, then one transaction that
looks up the request (joined with customer and service), requires status
`pending`, requires the preference to belong to the request, marks the chosen
preference selected, unselects the siblings, confirms the request with the
admin notes (JS `admin_notes || null`, so an empty string is stored as NULL),
and inserts one `appointments` row.  Every error path rolls the
transaction back, i.e. returns the input state. -/
def approve (db : DB) (reqId prefId : Nat) (adminNotes : Option String) :
    ApproveResult × DB :=
  if prefId == 0 || !(notesOk adminNotes) then (.validationFailed, db)
  else
    match findRequestJoined db reqId with
    | none => (.requestNotFound, db)
    | some (r, _c, s) =>
      if r.status ≠ .pending then (.stateConflict r.status, db)
      else
        match db.preferences.find? (fun p => p.id == prefId && p.requestId == reqId) with
        | none => (.invalidPreference, db)
        | some chosen =>
          let prefs1 := db.preferences.map (fun p =>
            if p.id == prefId then { p with isSelected := true } else p)
          let prefs2 := prefs1.map (fun p =>
            if p.requestId == reqId && p.id != prefId then { p with isSelected := false } else p)
          let reqs := db.requests.map (fun q =>
            if q.id == reqId then
              { q with status := .confirmed, adminNotes := jsOrNull adminNotes }
            else q)
          let appt : Appointment :=
            { id := db.nextId
              requestId := reqId
              preferenceId := prefId
              customerId := r.customerId
              serviceId := r.serviceId
              scheduledDatetime := chosen.preferredDatetime
              durationMinutes := s.durationMinutes
              status := "scheduled" }
          (.ok appt,
            { db with
                preferences := prefs2
                requests := reqs
                appointments := db.appointments ++ [appt]
                nextId := db.nextId + 1 })

/-- Outcome of `DELETE /api/admin/requests/:id`. -/
inductive CancelResult
  | ok
  | requestNotFound
  deriving DecidableEq, Repr

/-- `DELETE /api/admin/requests/:id`: looks the request up (joined), then sets
`status = 'cancelled'` with the admin notes (JS `admin_notes || default`).
The handler never checks the current status. -/
def cancelRequest (db : DB) (reqId : Nat) (adminNotes : Option String) :
    CancelResult × DB :=
  match findRequestJoined db reqId with
  | none => (.requestNotFound, db)
  | some _ =>
    let notes :=
      match adminNotes with
      | none => "Request cancelled by admin"
      | some s => if s = "" then "Request cancelled by admin" else s
    (.ok,
      { db with
          requests := db.requests.map (fun q =>
            if q.id == reqId then { q with status := .cancelled, adminNotes := some notes }
            else q) })

/-- Outcome of `PUT /api/admin/requests/:id/reschedule`. -/
inductive RescheduleResult
  | ok
  | validationFailed
  | requestNotFound
  | stateConflict (current : ReqStatus)
  deriving DecidableEq, Repr

/-- `PUT /api/admin/requests/:id/reschedule`: Joi requires a future datetime;
the request must exist (joined) and be `pending`; the handler then only
rewrites `admin_notes` — the status column is untouched. -/
def reschedule (db : DB) (reqId : Nat) (suggested : Nat) (adminNotes : Option String)
    (now : Nat) : RescheduleResult × DB :=
  if suggested < now || !(notesOk adminNotes) then (.validationFailed, db)
  else
    match findRequestJoined db reqId with
    | none => (.requestNotFound, db)
    | some (r, _c, _s) =>
      if r.status ≠ .pending then (.stateConflict r.status, db)
      else
        let text := "Suggested reschedule to " ++ toString suggested ++ ". " ++
          (match adminNotes with
           | none => ""
           | some s => s)
        (.ok,
          { db with
              requests := db.requests.map (fun q =>
                if q.id == reqId then { q with adminNotes := some text } else q) })

/-! ### Booking submission (`POST /api/requests`) -/

/-- The `preferred_times` payload items of the booking schema. -/
structure PreferredTime where
  datetime : Nat
  priority : Nat
  deriving DecidableEq, Repr

/-- The `customer` object of the booking payload. -/
structure BookingCustomer where
  name : String
  email : String
  phone : String
  deriving DecidableEq, Repr

/-- Structural part of the Joi `bookingSchema`: name length 2..255, phone
length 10..20, positive service id, 1..3 preferred times each with a
not-in-the-past datetime and priority 1..3, notes at most 1000 characters.
Joi's email-format check is abstracted to nonemptiness. -/
def bookingValid (now : Nat) (c : BookingCustomer) (serviceId : Nat)
    (times : List PreferredTime) (notes : Option String) : Bool :=
  2 ≤ c.name.length && c.name.length ≤ 255 &&
  c.email ≠ "" &&
  10 ≤ c.phone.length && c.phone.length ≤ 20 &&
  0 < serviceId &&
  1 ≤ times.length && times.length ≤ 3 &&
  times.all (fun t => now ≤ t.datetime && 1 ≤ t.priority && t.priority ≤ 3) &&
  notesOk notes

/-- Outcome of `POST /api/requests`. -/
inductive SubmitResult
  | ok (requestId : Nat)
  | validationFailed
  | invalidService
  deriving DecidableEq, Repr

/-- The per-time `INSERT INTO request_time_preferences` loop: one row per
submitted time, in payload order, with consecutive serial ids. -/
def insertPrefs (reqId : Nat) (nid : Nat) : List PreferredTime → List TimePreference
  | [] => []
  | t :: ts =>
    { id := nid
      requestId := reqId
      preferredDatetime := t.datetime
      priority := t.priority
      isSelected := false } :: insertPrefs reqId (nid + 1) ts

/-- The customer upsert of the booking handler: select by email (non-deleted);
insert a new row if absent, else update that row's name and phone.  Returns
the customer id, the updated table, and the advanced serial counter. -/
def upsertCustomer (db : DB) (c : BookingCustomer) : Nat × List Customer × Nat :=
  match db.customers.find? (fun cu => cu.email == c.email && cu.deletedAt == none) with
  | none =>
    (db.nextId,
     db.customers ++ [{ id := db.nextId, name := c.name, email := c.email,
                        phone := c.phone, deletedAt := none }],
     db.nextId + 1)
  | some cu =>
    (cu.id,
     db.customers.map (fun x =>
       if x.id == cu.id then { x with name := c.name, phone := c.phone } else x),
     db.nextId)

/-- `POST /api/requests`: Joi validation, then one transaction that requires an
active non-deleted service, upserts the customer by email, inserts one
`pending` request, and inserts the time-preference rows in payload order.
Error paths return the input state (rollback). -/
def submit (db : DB) (now : Nat) (c : BookingCustomer) (serviceId : Nat)
    (times : List PreferredTime) (notes : Option String) : SubmitResult × DB :=
  if !(bookingValid now c serviceId times notes) then (.validationFailed, db)
  else
    match db.services.find? (fun s => s.id == serviceId && s.isActive && s.deletedAt == none) with
    | none => (.invalidService, db)
    | some _svc =>
      let up := upsertCustomer db c
      let custId := up.1
      let customers := up.2.1
      let reqId := up.2.2
      let req : AppointmentRequest :=
        { id := reqId
          customerId := custId
          serviceId := serviceId
          status := .pending
          customerNotes := jsOrNull notes
          adminNotes := none
          deletedAt := none }
      (.ok reqId,
        { db with
            customers := customers
            requests := db.requests ++ [req]
            preferences := db.preferences ++ insertPrefs reqId (reqId + 1) times
            nextId := reqId + 1 + times.length })

/-! ### Authentication (`POST /api/auth/login`, token verification) -/

/-- Row of the `admin_users` table (columns used by the login path). -/
structure AdminUser where
  id : Nat
  email : String
  passwordHash : String
  firstName : String
  lastName : String
  role : String
  isActive : Bool
  lastLoginAt : Option Nat
  failedLoginAttempts : Nat
  lockedUntil : Option Nat
  deriving DecidableEq, Repr

/-- JWT payload built by `generateToken`: account id, email, role, first/last
name, and the expiry instant (ms). -/
structure TokenPayload where
  id : Nat
  email : String
  role : String
  firstName : String
  lastName : String
  exp : Nat
  deriving DecidableEq, Repr

/-- A token as produced by `jwt.sign`: payload plus signature value. -/
structure SignedToken where
  payload : TokenPayload
  sig : Nat
  deriving DecidableEq, Repr

/-- 30 minutes in milliseconds (the lockout duration). -/
def lockMs : Nat := 30 * 60 * 1000

/-- 24 hours in milliseconds (default token lifetime). -/
def dayMs : Nat := 24 * 60 * 60 * 1000

/-- 30 days in milliseconds (`rememberMe` token lifetime). -/
def thirtyDaysMs : Nat := 30 * dayMs

/-- Outcome of `POST /api/auth/login`. -/
inductive LoginResult
  | invalidCredentials (lockMessage : Bool)
  | accountLocked (minutesRemaining : Nat)
  | success (token : SignedToken) (expiresIn : String)
  deriving DecidableEq, Repr

/-- `generateToken(user, rememberMe)`: signs a payload of account id, email,
role and first/last name, expiring 24 hours from now, or 30 days with
`rememberMe`.  `mac secret payload` stands for the JWT signature. -/
def generateToken (mac : String → TokenPayload → Nat) (secret : String)
    (u : AdminUser) (rememberMe : Bool) (now : Nat) : SignedToken :=
  let payload : TokenPayload :=
    { id := u.id
      email := u.email
      role := u.role
      firstName := u.firstName
      lastName := u.lastName
      exp := now + (if rememberMe then thirtyDaysMs else dayMs) }
  { payload := payload, sig := mac secret payload }

/-- The password check of `POST /api/auth/login` and its two outcomes, reached
once the lock check has passed (no lock set, or the lock has expired).  A
failed `bcrypt.compare` stores `failed_login_attempts + 1` and, from the 5th
failure on, `locked_until = now + 30min` (otherwise NULL), answering 401
INVALID_CREDENTIALS whose message mentions the lock exactly when the lock was
just set.  A successful compare zeroes the counter, clears the lock, stamps
`last_login_at` and signs the JWT. -/
def loginAfterLockCheck (compare : String → String → Bool)
    (mac : String → TokenPayload → Nat) (secret : String) (now : Nat)
    (users : List AdminUser) (u : AdminUser) (password : String)
    (rememberMe : Bool) : LoginResult × List AdminUser :=
  if !(compare password u.passwordHash) then
    let failed := u.failedLoginAttempts + 1
    let lockUntil : Option Nat := if 5 ≤ failed then some (now + lockMs) else none
    (.invalidCredentials (decide (5 ≤ failed)),
     users.map (fun x =>
       if x.id == u.id then
         { x with failedLoginAttempts := failed, lockedUntil := lockUntil }
       else x))
  else
    (.success (generateToken mac secret u rememberMe now)
      (if rememberMe then "30d" else "24h"),
     users.map (fun x =>
       if x.id == u.id then
         { x with failedLoginAttempts := 0, lockedUntil := none, lastLoginAt := some now }
       else x))

/-- `POST /api/auth/login` over the `admin_users` table.  `compare` stands for
`bcrypt.compare`, `mac secret payload` for the JWT signature.  Looks up an
active account by email; a set, still-future `locked_until` short-circuits to
423 with the ceiling of the remaining minutes; otherwise the password check
runs (`loginAfterLockCheck`). -/
def login (compare : String → String → Bool) (mac : String → TokenPayload → Nat)
    (secret : String) (now : Nat) (users : List AdminUser)
    (email password : String) (rememberMe : Bool) : LoginResult × List AdminUser :=
  match users.find? (fun u => u.email == email && u.isActive) with
  | none => (.invalidCredentials false, users)
  | some u =>
    match u.lockedUntil with
    | some t =>
      if now < t then
        (.accountLocked ((t - now + (60000 - 1)) / 60000), users)
      else loginAfterLockCheck compare mac secret now users u password rememberMe
    | none => loginAfterLockCheck compare mac secret now users u password rememberMe

/-- A bearer token as the middleware receives it: absent, undecodable, or a
decodable payload-plus-signature. -/
inductive RawToken
  | missing
  | malformed
  | signedTok (t : SignedToken)
  deriving DecidableEq, Repr

/-- Outcome of the token-verification middleware / `GET /api/auth/verify`. -/
inductive VerifyResult
  | ok (user : AdminUser) (tokenExp : Nat)
  | tokenRequired
  | invalidToken
  | tokenExpired
  | userNotFound
  deriving DecidableEq, Repr

/-- `authenticateToken` middleware (same checks as `GET /api/auth/verify`):
missing token → 401 TOKEN_REQUIRED; undecodable or wrongly signed →
INVALID_TOKEN; expired → TOKEN_EXPIRED; then the account is re-queried by id
with `is_active = true`, and a missing row → USER_NOT_FOUND. -/
def authenticateToken (mac : String → TokenPayload → Nat) (secret : String)
    (now : Nat) (users : List AdminUser) (tok : RawToken) : VerifyResult :=
  match tok with
  | .missing => .tokenRequired
  | .malformed => .invalidToken
  | .signedTok t =>
    if t.sig ≠ mac secret t.payload then .invalidToken
    else if t.payload.exp ≤ now then .tokenExpired
    else
      match users.find? (fun u => u.id == t.payload.id && u.isActive) with
      | none => .userNotFound
      | some u => .ok u t.payload.exp

/-! ### Derived predicates and concrete fixtures -/

/-- Whether an approval outcome is the success case. -/
def ApproveResult.isOk : ApproveResult → Bool
  | .ok _ => true
  | _ => false

/-- Integrity: every appointment row references a confirmed request. -/
def apptHasConfirmedRequest (db : DB) : Prop :=
  ∀ a ∈ db.appointments, ∃ r ∈ db.requests, r.id = a.requestId ∧ r.status = .confirmed

/-- Integrity: no confirmed request has two distinct selected preferences. -/
def noDoubleSelection (db : DB) : Prop :=
  ∀ r ∈ db.requests, r.status = .confirmed →
    ∀ p ∈ db.preferences, ∀ q ∈ db.preferences,
      p.requestId = r.id → q.requestId = r.id →
      p.isSelected = true → q.isSelected = true → p = q

/-- Replay of consecutive login attempts with fixed credentials, one per
timestamp in the list. -/
def loginAttempts (compare : String → String → Bool)
    (mac : String → TokenPayload → Nat) (secret : String)
    (email password : String) (rememberMe : Bool) :
    List Nat → List AdminUser → List AdminUser
  | [], users => users
  | t :: ts, users =>
    loginAttempts compare mac secret email password rememberMe ts
      (login compare mac secret t users email password rememberMe).2

/-- A `bcrypt.compare` that rejects everything (for concrete bad-password runs). -/
def cmpNever : String → String → Bool := fun _ _ => false

/-- A `bcrypt.compare` that accepts exactly the stored string (concrete runs). -/
def cmpEq : String → String → Bool := fun p h => p == h

/-- A trivial JWT signature function for concrete runs. -/
def macZero : String → TokenPayload → Nat := fun _ _ => 0

/-- Fixture service row. -/
def svcA : Service :=
  { id := 1, name := "cut", durationMinutes := 60, price := 50,
    maxConcurrent := 1, isActive := true, deletedAt := none }

/-- Fixture customer row. -/
def custA : Customer :=
  { id := 2, name := "alice", email := "a@b.c", phone := "0123456789", deletedAt := none }

/-- Fixture pending request row. -/
def reqA : AppointmentRequest :=
  { id := 3, customerId := 2, serviceId := 1, status := .pending,
    customerNotes := none, adminNotes := none, deletedAt := none }

/-- Fixture first time preference of `reqA`. -/
def prefA1 : TimePreference :=
  { id := 4, requestId := 3, preferredDatetime := 100, priority := 1, isSelected := false }

/-- Fixture second time preference of `reqA`. -/
def prefA2 : TimePreference :=
  { id := 5, requestId := 3, preferredDatetime := 200, priority := 2, isSelected := false }

/-- Fixture database with one pending request and two preferences. -/
def dbA : DB :=
  { services := [svcA], customers := [custA], requests := [reqA],
    preferences := [prefA1, prefA2], appointments := [], nextId := 10 }

/-- `dbA` with the request already confirmed (a terminal status). -/
def dbConfirmed : DB :=
  { dbA with requests := [{ reqA with status := .confirmed }] }

/-- The appointment row created by approving the fixture request with
preference 4 (id from the fixture serial counter). -/
def apptA : Appointment :=
  { id := 10, requestId := 3, preferenceId := 4, customerId := 2, serviceId := 1,
    scheduledDatetime := 100, durationMinutes := 60, status := "scheduled" }

/-- Fixture booking payload customer. -/
def bcA : BookingCustomer :=
  { name := "bobby", email := "new@x.y", phone := "0123456789" }

/-- Fixture single preferred time. -/
def pts1 : List PreferredTime := [{ datetime := 100, priority := 1 }]

/-- Fixture admin account: active, no failures, unlocked. -/
def uA : AdminUser :=
  { id := 7, email := "admin@x.y", passwordHash := "pw", firstName := "Rhi",
    lastName := "Admin", role := "admin", isActive := true, lastLoginAt := none,
    failedLoginAttempts := 0, lockedUntil := none }

/-- Fixture admin account at the lockout threshold with an expired lock. -/
def uC : AdminUser :=
  { uA with failedLoginAttempts := 5, lockedUntil := some 50 }

/-! ### Theorems -/

/-- What a successful joined request lookup guarantees about its result. -/
theorem findRequestJoined_spec (db : DB) (reqId : Nat) (r : AppointmentRequest)
    (c : Customer) (s : Service) (h : findRequestJoined db reqId = some (r, c, s)) :
    r ∈ db.requests ∧ r.id = reqId ∧ r.deletedAt = none ∧
    c ∈ db.customers ∧ c.id = r.customerId ∧
    s ∈ db.services ∧ s.id = r.serviceId := by
  unfold findRequestJoined at h
  split at h
  · exact absurd h (by simp)
  case _ r0 hr0 =>
    split at h
    case _ c0 s0 hc0 hs0 =>
      injection h with h1
      obtain ⟨hr, hcs⟩ := Prod.mk.injEq .. ▸ h1
      obtain ⟨hc, hs⟩ := Prod.mk.injEq .. ▸ hcs
      subst hr; subst hc; subst hs
      have hp := List.find?_some hr0
      simp only [Bool.and_eq_true, beq_iff_eq] at hp
      have hpc := List.find?_some hc0
      have hps := List.find?_some hs0
      simp only [beq_iff_eq] at hpc hps
      exact ⟨List.mem_of_find?_eq_some hr0, hp.1, hp.2,
        List.mem_of_find?_eq_some hc0, hpc,
        List.mem_of_find?_eq_some hs0, hps⟩
    case _ hne =>
      exact absurd h (by simp)

/-- Claim C2: every failing approval (request not found, not pending, invalid
preference, or validation) leaves the state exactly as it was — the
transaction is rolled back in full, so a failing approve can neither create an
appointment without a confirmed request nor leave a confirmed request with two
selected preferences. -/
theorem approve_failure_rolls_back (db db' : DB) (reqId prefId : Nat)
    (notes : Option String) (res : ApproveResult)
    (h : approve db reqId prefId notes = (res, db'))
    (hfail : res.isOk = false) :
    db' = db ∧ (apptHasConfirmedRequest db → apptHasConfirmedRequest db')
      ∧ (noDoubleSelection db → noDoubleSelection db') := by
  unfold approve at h
  split at h
  · injection h with h1 h2; subst h2; exact ⟨rfl, id, id⟩
  · split at h
    · injection h with h1 h2; subst h2; exact ⟨rfl, id, id⟩
    · split at h
      · injection h with h1 h2; subst h2; exact ⟨rfl, id, id⟩
      · split at h
        · injection h with h1 h2; subst h2; exact ⟨rfl, id, id⟩
        · injection h with h1 h2
          rw [← h1] at hfail
          simp [ApproveResult.isOk] at hfail

/-- Witness for C2: approving a nonexistent request against the fixture state
changes nothing. -/
theorem approve_failure_rolls_back_witness :
    (approve dbA 99 4 none).2 = dbA :=
  (approve_failure_rolls_back dbA (approve dbA 99 4 none).2 99 4 none
    (approve dbA 99 4 none).1 rfl (by decide)).1

/-- Claim C3: with a well-formed body, approve answers RequestNotFound when no
non-deleted request with the id exists, StateConflict (reporting the current
status) with no state change when the request is not pending, and
InvalidPreference when the preference does not belong to the request. -/
theorem approve_error_cases (db : DB) (reqId prefId : Nat) (notes : Option String)
    (hpref : prefId ≠ 0) (hnotes : notesOk notes = true) :
    ((∀ r ∈ db.requests, ¬(r.id = reqId ∧ r.deletedAt = none)) →
        approve db reqId prefId notes = (.requestNotFound, db))
    ∧ (∀ r c s, findRequestJoined db reqId = some (r, c, s) → r.status ≠ .pending →
        approve db reqId prefId notes = (.stateConflict r.status, db))
    ∧ (∀ r c s, findRequestJoined db reqId = some (r, c, s) → r.status = .pending →
        (∀ p ∈ db.preferences, ¬(p.id = prefId ∧ p.requestId = reqId)) →
        approve db reqId prefId notes = (.invalidPreference, db)) := by
  have hv : (prefId == 0 || !(notesOk notes)) = false := by
    simp [hnotes, hpref]
  refine ⟨?_, ?_, ?_⟩
  · intro hno
    have hfind : db.requests.find? (fun r => r.id == reqId && r.deletedAt == none) = none := by
      rw [List.find?_eq_none]
      intro r hr
      simp only [Bool.and_eq_true, beq_iff_eq, not_and]
      intro h1 h2
      exact hno r hr ⟨h1, h2⟩
    have hj : findRequestJoined db reqId = none := by
      unfold findRequestJoined; rw [hfind]
    unfold approve
    simp [hv, hj]
  · intro r c s hj hst
    unfold approve
    simp [hv, hj, hst]
  · intro r c s hj hst hnop
    have hfindp : db.preferences.find? (fun p => p.id == prefId && p.requestId == reqId) = none := by
      rw [List.find?_eq_none]
      intro p hp
      simp only [Bool.and_eq_true, beq_iff_eq, not_and]
      intro h1 h2
      exact hnop p hp ⟨h1, h2⟩
    unfold approve
    simp [hv, hj, hst, hfindp]

/-- Witness for C3: the fixture state has no request 99, and approve reports
RequestNotFound, leaving the state unchanged. -/
theorem approve_error_cases_witness :
    approve dbA 99 4 none = (.requestNotFound, dbA) :=
  (approve_error_cases dbA 99 4 none (by decide) (by decide)).1 (by decide)

/-- Claim C1: a successful approval of a pending request marks the chosen
preference selected, unselects every sibling preference of the request (so
exactly one preference of the request is selected), confirms the request with
the given admin notes (stored through the JS `|| null` coercion, so an empty
string becomes NULL), and appends exactly one appointment row, scheduled at
the chosen preference's timestamp, with the service's duration and status
'scheduled'. -/
theorem approve_success_spec (db db' : DB) (reqId prefId : Nat)
    (notes : Option String) (appt : Appointment)
    (hnd : (db.preferences.map TimePreference.id).Nodup)
    (h : approve db reqId prefId notes = (.ok appt, db')) :
    (∀ p ∈ db'.preferences, p.requestId = reqId → (p.isSelected = true ↔ p.id = prefId))
    ∧ (∃ p ∈ db'.preferences, p.requestId = reqId ∧ p.isSelected = true ∧
        ∀ q ∈ db'.preferences, q.requestId = reqId → q.isSelected = true → q = p)
    ∧ (∀ r ∈ db'.requests, r.id = reqId →
        r.status = .confirmed ∧ r.adminNotes = jsOrNull notes)
    ∧ db'.appointments = db.appointments ++ [appt]
    ∧ appt.status = "scheduled"
    ∧ appt.requestId = reqId
    ∧ appt.preferenceId = prefId
    ∧ (∃ p ∈ db.preferences, p.id = prefId ∧ p.requestId = reqId ∧
        appt.scheduledDatetime = p.preferredDatetime)
    ∧ (∃ r ∈ db.requests, r.id = reqId ∧ ∃ s ∈ db.services, s.id = r.serviceId ∧
        appt.durationMinutes = s.durationMinutes) := by
  unfold approve at h
  split at h
  · exact absurd h (by simp)
  · split at h
    · exact absurd h (by simp)
    · next r c s hj =>
      split at h
      · exact absurd h (by simp)
      · next hpend =>
        split at h
        · exact absurd h (by simp)
        · next chosen hch =>
          injection h with h1 h2
          injection h1 with h1
          subst h1
          subst h2
          have hchp := List.find?_some hch
          simp only [Bool.and_eq_true, beq_iff_eq] at hchp
          obtain ⟨hcid, hcr⟩ := hchp
          have hchm := List.mem_of_find?_eq_some hch
          obtain ⟨hrm, hrid, _hrdel, _hcm, _hcid2, hsm, hsid⟩ :=
            findRequestJoined_spec db reqId r c s hj
          refine ⟨?_, ?_, ?_, rfl, rfl, rfl, rfl, ?_, ?_⟩
          · intro p hp hpr
            rw [List.mem_map] at hp
            obtain ⟨q1, hq1, rfl⟩ := hp
            rw [List.mem_map] at hq1
            obtain ⟨q0, _hq0, rfl⟩ := hq1
            by_cases hid : q0.id = prefId <;> by_cases hreq : q0.requestId = reqId <;>
              simp [hid, hreq] at hpr ⊢
          · refine ⟨{ chosen with isSelected := true }, ?_, ?_, rfl, ?_⟩
            · have hmem := List.mem_map_of_mem
                (fun p => if p.requestId == reqId && p.id != prefId then
                  { p with isSelected := false } else p)
                (List.mem_map_of_mem
                  (fun p => if p.id == prefId then { p with isSelected := true } else p)
                  hchm)
              simpa [hcid, hcr] using hmem
            · simpa using hcr
            · intro q hq hqr hqs
              rw [List.mem_map] at hq
              obtain ⟨q1, hq1, rfl⟩ := hq
              rw [List.mem_map] at hq1
              obtain ⟨q0, hq0, rfl⟩ := hq1
              by_cases hid : q0.id = prefId
              · have : q0 = chosen :=
                  List.inj_on_of_nodup_map hnd hq0 hchm (by rw [hid, hcid])
                subst this
                simp [hid, hcid]
              · by_cases hreq : q0.requestId = reqId <;>
                  simp [hid, hreq] at hqr hqs
          · intro r' hr' hid'
            rw [List.mem_map] at hr'
            obtain ⟨q, _hq, rfl⟩ := hr'
            by_cases hqid : q.id = reqId
            · simp [hqid]
            · simp [hqid] at hid' ⊢
          · exact ⟨chosen, hchm, hcid, hcr, rfl⟩
          · exact ⟨r, hrm, hrid, s, hsm, hsid, rfl⟩

/-- Witness for C1: approving the fixture request appends exactly the expected
appointment row. -/
theorem approve_success_spec_witness :
    (approve dbA 3 4 (some "ok")).2.appointments = dbA.appointments ++ [apptA] :=
  (approve_success_spec dbA (approve dbA 3 4 (some "ok")).2 3 4 (some "ok") apptA
    (by decide) (by decide)).2.2.2.1

/-- Counterexample to claim C9 as stated: the admin cancel handler never checks
the current status, so a request already in the terminal status 'confirmed' is
cancelled — its status changes a second time, and the cancel operation applied
to a non-pending request succeeds. -/
theorem cancel_confirmed_counterexample :
    (cancelRequest dbConfirmed 3 none).1 = .ok ∧
    dbConfirmed.requests.map AppointmentRequest.status = [.confirmed] ∧
    (cancelRequest dbConfirmed 3 none).2.requests.map AppointmentRequest.status
      = [.cancelled] := by decide

/-- Claim C9 (amended): requests are created 'pending' by booking; approve
moves a status only from 'pending' to 'confirmed'; reschedule never changes a
status; but the admin cancel operation applies to every non-deleted request
regardless of its current status and sets it to 'cancelled', so a confirmed
request can still change to 'cancelled'. -/
theorem request_lifecycle_amended (db : DB) (reqId : Nat) (notes : Option String)
    (hnd : (db.requests.map AppointmentRequest.id).Nodup) :
    (∀ now c sid times nts res db', submit db now c sid times nts = (res, db') →
        db'.requests = db.requests ∨
          ∃ r, db'.requests = db.requests ++ [r] ∧ r.status = .pending)
    ∧ (∀ prefId res db', approve db reqId prefId notes = (res, db') →
        ∀ q ∈ db.requests, ∀ q' ∈ db'.requests, q'.id = q.id →
          q'.status = q.status ∨ (q.status = .pending ∧ q'.status = .confirmed))
    ∧ (∀ sug now, (reschedule db reqId sug notes now).2.requests.map
        AppointmentRequest.status = db.requests.map AppointmentRequest.status)
    ∧ (∀ x, findRequestJoined db reqId = some x →
        (cancelRequest db reqId notes).1 = .ok ∧
        ∀ q' ∈ (cancelRequest db reqId notes).2.requests, q'.id = reqId →
          q'.status = .cancelled) := by
  have hinj := List.inj_on_of_nodup_map hnd
  refine ⟨?_, ?_, ?_, ?_⟩
  · intro now c sid times nts res db' h
    unfold submit at h
    split at h
    · injection h with _ h2; subst h2; exact Or.inl rfl
    · split at h
      · injection h with _ h2; subst h2; exact Or.inl rfl
      · injection h with _ h2; subst h2
        exact Or.inr ⟨_, rfl, rfl⟩
  · intro prefId res db' h q hq q' hq' hid
    unfold approve at h
    split at h
    · injection h with _ h2; subst h2
      exact Or.inl (congrArg AppointmentRequest.status (hinj hq' hq hid))
    · split at h
      · injection h with _ h2; subst h2
        exact Or.inl (congrArg AppointmentRequest.status (hinj hq' hq hid))
      · next r c s hj =>
        split at h
        · injection h with _ h2; subst h2
          exact Or.inl (congrArg AppointmentRequest.status (hinj hq' hq hid))
        · next hpend =>
          split at h
          · injection h with _ h2; subst h2
            exact Or.inl (congrArg AppointmentRequest.status (hinj hq' hq hid))
          · next chosen hch =>
            injection h with _ h2; subst h2
            obtain ⟨hrm, hrid, -, -, -, -, -⟩ :=
              findRequestJoined_spec db reqId r c s hj
            rw [not_not] at hpend
            simp only [List.mem_map] at hq'
            obtain ⟨p, hp, rfl⟩ := hq'
            by_cases hpid : p.id = reqId
            · have hpq : p = q := by
                refine hinj hp hq ?_
                simpa [hpid] using hid
              have hpr : p = r := hinj hp hrm (hpid.trans hrid.symm)
              subst hpq
              exact Or.inr ⟨hpr ▸ hpend, by simp [hpid]⟩
            · have hpq : p = q := by
                refine hinj hp hq ?_
                simpa [hpid] using hid
              subst hpq
              exact Or.inl (by simp [hpid])
  · intro sug now
    unfold reschedule
    split
    · rfl
    · split
      · rfl
      · split
        · rfl
        · simp only [List.map_map]
          refine List.map_congr_left ?_
          intro x _
          by_cases hxi : x.id = reqId <;> simp [hxi]
  · intro x hx
    unfold cancelRequest
    rw [hx]
    refine ⟨rfl, ?_⟩
    intro q' hq' hid'
    simp only [List.mem_map] at hq'
    obtain ⟨p, _hp, rfl⟩ := hq'
    by_cases hpid : p.id = reqId
    · simp [hpid]
    · simp [hpid] at hid' ⊢

/-- Witness for the amended C9: on the fixture state, reschedule leaves every
request status unchanged. -/
theorem request_lifecycle_amended_witness :
    (reschedule dbA 3 200 none 50).2.requests.map AppointmentRequest.status
      = dbA.requests.map AppointmentRequest.status :=
  (request_lifecycle_amended dbA 3 none (by decide)).2.2.1 200 50

/-- The inserted preference rows reproduce the submitted datetime/priority
pairs in order. -/
theorem insertPrefs_map_pair (reqId : Nat) :
    ∀ (ts : List PreferredTime) (nid : Nat),
      (insertPrefs reqId nid ts).map (fun p => (p.preferredDatetime, p.priority))
        = ts.map (fun t => (t.datetime, t.priority))
  | [], _ => rfl
  | t :: ts, nid => by
    simp only [insertPrefs, List.map_cons, insertPrefs_map_pair reqId ts (nid + 1)]

/-- Every inserted preference row belongs to the new request and is unselected. -/
theorem insertPrefs_fields (reqId : Nat) :
    ∀ (ts : List PreferredTime) (nid : Nat), ∀ p ∈ insertPrefs reqId nid ts,
      p.requestId = reqId ∧ p.isSelected = false
  | [], _, p, hp => by simp [insertPrefs] at hp
  | t :: ts, nid, p, hp => by
    rw [insertPrefs] at hp
    rcases List.mem_cons.mp hp with h | h
    · subst h; exact ⟨rfl, rfl⟩
    · exact insertPrefs_fields reqId ts (nid + 1) p h

/-- One preference row is inserted per submitted time. -/
theorem insertPrefs_length (reqId : Nat) :
    ∀ (ts : List PreferredTime) (nid : Nat),
      (insertPrefs reqId nid ts).length = ts.length
  | [], _ => rfl
  | t :: ts, nid => by
    simp only [insertPrefs, List.length_cons, insertPrefs_length reqId ts (nid + 1)]

/-- Claim C6: a schema-valid booking against an existing active service creates
exactly one pending request and one time-preference row per submitted time,
preserving the submitted order, and upserts the customer by email (insert when
absent, else update that customer's name and phone). -/
theorem submit_success_spec (db : DB) (now : Nat) (c : BookingCustomer)
    (sid : Nat) (times : List PreferredTime) (notes : Option String) (svc : Service)
    (hval : bookingValid now c sid times notes = true)
    (hsvc : db.services.find? (fun s => s.id == sid && s.isActive && s.deletedAt == none)
      = some svc) :
    ∃ r : AppointmentRequest,
      (submit db now c sid times notes).1 = .ok r.id
      ∧ (submit db now c sid times notes).2.requests = db.requests ++ [r]
      ∧ r.status = .pending ∧ r.serviceId = sid ∧ r.customerNotes = jsOrNull notes
      ∧ (submit db now c sid times notes).2.preferences
          = db.preferences ++ insertPrefs r.id (r.id + 1) times
      ∧ (insertPrefs r.id (r.id + 1) times).map (fun p => (p.preferredDatetime, p.priority))
          = times.map (fun t => (t.datetime, t.priority))
      ∧ (∀ p ∈ insertPrefs r.id (r.id + 1) times, p.requestId = r.id ∧ p.isSelected = false)
      ∧ (insertPrefs r.id (r.id + 1) times).length = times.length
      ∧ (db.customers.find? (fun cu => cu.email == c.email && cu.deletedAt == none) = none →
          (submit db now c sid times notes).2.customers
            = db.customers ++ [{ id := db.nextId, name := c.name, email := c.email,
                                 phone := c.phone, deletedAt := none }])
      ∧ (∀ cu, db.customers.find? (fun x => x.email == c.email && x.deletedAt == none)
            = some cu →
          (submit db now c sid times notes).2.customers
            = db.customers.map (fun x =>
                if x.id == cu.id then { x with name := c.name, phone := c.phone } else x)) := by
  cases hcu : db.customers.find? (fun cu => cu.email == c.email && cu.deletedAt == none) with
  | none =>
    refine ⟨{ id := db.nextId + 1, customerId := db.nextId, serviceId := sid,
              status := .pending, customerNotes := jsOrNull notes, adminNotes := none,
              deletedAt := none }, ?_, ?_, rfl, rfl, rfl, ?_,
            insertPrefs_map_pair _ times _, insertPrefs_fields _ times _,
            insertPrefs_length _ times _, fun _ => ?_, fun cu hcu2 => ?_⟩
    · simp [submit, upsertCustomer, hval, hsvc, hcu]
    · simp [submit, upsertCustomer, hval, hsvc, hcu]
    · simp [submit, upsertCustomer, hval, hsvc, hcu]
    · simp [submit, upsertCustomer, hval, hsvc, hcu]
    · cases hcu2
  | some cu0 =>
    refine ⟨{ id := db.nextId, customerId := cu0.id, serviceId := sid,
              status := .pending, customerNotes := jsOrNull notes, adminNotes := none,
              deletedAt := none }, ?_, ?_, rfl, rfl, rfl, ?_,
            insertPrefs_map_pair _ times _, insertPrefs_fields _ times _,
            insertPrefs_length _ times _, fun hno => ?_, fun cu hcu2 => ?_⟩
    · simp [submit, upsertCustomer, hval, hsvc, hcu]
    · simp [submit, upsertCustomer, hval, hsvc, hcu]
    · simp [submit, upsertCustomer, hval, hsvc, hcu]
    · cases hno
    · injection hcu2 with hcu2
      subst hcu2
      simp [submit, upsertCustomer, hval, hsvc, hcu]

/-- Witness for C6: submitting the fixture booking adds exactly one request. -/
theorem submit_success_spec_witness :
    (submit dbA 50 bcA 1 pts1 none).2.requests.length = dbA.requests.length + 1 :=
  Exists.elim (submit_success_spec dbA 50 bcA 1 pts1 none svcA (by decide) (by decide))
    (fun r hr => by rw [hr.2.1]; simp)

/-- Claim C7: a booking whose service id matches no active, non-deleted service
fails with InvalidService and leaves the whole state untouched (no customer,
request or preference rows); a submission that fails validation likewise
leaves the state untouched. -/
theorem submit_invalid_service (db : DB) (now : Nat) (c : BookingCustomer)
    (sid : Nat) (times : List PreferredTime) (notes : Option String) :
    (bookingValid now c sid times notes = true →
      db.services.find?
          (fun s => s.id == sid && s.isActive && s.deletedAt == none) = none →
      submit db now c sid times notes = (.invalidService, db))
    ∧ (bookingValid now c sid times notes = false →
      submit db now c sid times notes = (.validationFailed, db)) := by
  constructor
  · intro hval hsvc
    simp [submit, hval, hsvc]
  · intro hval
    simp [submit, hval]

/-- Witness for C7: the fixture state has no service 2, and submitting against
it fails with InvalidService and changes nothing. -/
theorem submit_invalid_service_witness :
    submit dbA 50 bcA 2 pts1 none = (.invalidService, dbA) :=
  (submit_invalid_service dbA 50 bcA 2 pts1 none).1 (by decide) (by decide)

/-- One failed login against a single-account table whose lock (if any) has
expired: the attempt counter increments by one and the 30-minute lock is set
exactly when the new counter reaches 5, with the 401 response flagged with the
lock message in exactly that case. -/
theorem login_fail_single (compare : String → String → Bool)
    (mac : String → TokenPayload → Nat) (secret : String) (now : Nat)
    (u : AdminUser) (pw : String) (rm : Bool)
    (hact : u.isActive = true)
    (hnl : ∀ t, u.lockedUntil = some t → t ≤ now)
    (hbad : compare pw u.passwordHash = false) :
    login compare mac secret now [u] u.email pw rm =
      (.invalidCredentials (decide (5 ≤ u.failedLoginAttempts + 1)),
       [{ u with failedLoginAttempts := u.failedLoginAttempts + 1,
                 lockedUntil := if 5 ≤ u.failedLoginAttempts + 1
                   then some (now + lockMs) else none }]) := by
  have hfind : List.find? (fun x => x.email == u.email && x.isActive) [u] = some u :=
    List.find?_cons_of_pos _ (by simp [hact])
  unfold login
  rw [hfind]
  cases hLU : u.lockedUntil with
  | none =>
    simp [hLU, loginAfterLockCheck, hbad]
  | some t =>
    have ht : ¬ now < t := Nat.not_lt.mpr (hnl t hLU)
    simp [hLU, ht, loginAfterLockCheck, hbad]

/-- Claim C4: starting from an unlocked account with a zero counter, four
consecutive failed logins leave the account unlocked with counter 4; the fifth
failed attempt sets counter 5 and the lock to its own time plus 30 minutes,
and itself answers the InvalidCredentials code with the lock message; and
while the current time is before the lock expiry, every further attempt — any
password, including the correct one — answers AccountLocked. -/
theorem login_lockout_after_five (compare : String → String → Bool)
    (mac : String → TokenPayload → Nat) (secret : String) (u : AdminUser)
    (badPw : String) (t1 t2 t3 t4 t5 : Nat) (rm : Bool)
    (hact : u.isActive = true) (h0 : u.failedLoginAttempts = 0)
    (hl : u.lockedUntil = none)
    (hbad : compare badPw u.passwordHash = false) :
    loginAttempts compare mac secret u.email badPw rm [t1, t2, t3, t4] [u]
      = [{ u with failedLoginAttempts := 4, lockedUntil := none }]
    ∧ loginAttempts compare mac secret u.email badPw rm [t1, t2, t3, t4, t5] [u]
      = [{ u with failedLoginAttempts := 5, lockedUntil := some (t5 + lockMs) }]
    ∧ (login compare mac secret t5
        (loginAttempts compare mac secret u.email badPw rm [t1, t2, t3, t4] [u])
        u.email badPw rm).1 = .invalidCredentials true
    ∧ (∀ pw t', t' < t5 + lockMs →
        (login compare mac secret t'
          [{ u with failedLoginAttempts := 5, lockedUntil := some (t5 + lockMs) }]
          u.email pw rm).1
          = .accountLocked ((t5 + lockMs - t' + (60000 - 1)) / 60000)) := by
  have s1 : login compare mac secret t1 [u] u.email badPw rm
      = (.invalidCredentials false,
         [{ u with failedLoginAttempts := 1, lockedUntil := none }]) := by
    have h := login_fail_single compare mac secret t1 u badPw rm hact
      (fun t ht => by rw [hl] at ht; cases ht) hbad
    rw [h0] at h
    simpa using h
  have s2 : login compare mac secret t2
      [{ u with failedLoginAttempts := 1, lockedUntil := none }] u.email badPw rm
      = (.invalidCredentials false,
         [{ u with failedLoginAttempts := 2, lockedUntil := none }]) := by
    have h := login_fail_single compare mac secret t2
      { u with failedLoginAttempts := 1, lockedUntil := none } badPw rm
      (by simpa using hact) (fun t ht => by simp at ht) (by simpa using hbad)
    simpa using h
  have s3 : login compare mac secret t3
      [{ u with failedLoginAttempts := 2, lockedUntil := none }] u.email badPw rm
      = (.invalidCredentials false,
         [{ u with failedLoginAttempts := 3, lockedUntil := none }]) := by
    have h := login_fail_single compare mac secret t3
      { u with failedLoginAttempts := 2, lockedUntil := none } badPw rm
      (by simpa using hact) (fun t ht => by simp at ht) (by simpa using hbad)
    simpa using h
  have s4 : login compare mac secret t4
      [{ u with failedLoginAttempts := 3, lockedUntil := none }] u.email badPw rm
      = (.invalidCredentials false,
         [{ u with failedLoginAttempts := 4, lockedUntil := none }]) := by
    have h := login_fail_single compare mac secret t4
      { u with failedLoginAttempts := 3, lockedUntil := none } badPw rm
      (by simpa using hact) (fun t ht => by simp at ht) (by simpa using hbad)
    simpa using h
  have s5 : login compare mac secret t5
      [{ u with failedLoginAttempts := 4, lockedUntil := none }] u.email badPw rm
      = (.invalidCredentials true,
         [{ u with failedLoginAttempts := 5, lockedUntil := some (t5 + lockMs) }]) := by
    have h := login_fail_single compare mac secret t5
      { u with failedLoginAttempts := 4, lockedUntil := none } badPw rm
      (by simpa using hact) (fun t ht => by simp at ht) (by simpa using hbad)
    simpa using h
  have c1 : loginAttempts compare mac secret u.email badPw rm [t1, t2, t3, t4] [u]
      = [{ u with failedLoginAttempts := 4, lockedUntil := none }] := by
    simp only [loginAttempts, s1, s2, s3, s4]
  refine ⟨c1, ?_, ?_, ?_⟩
  · simp only [loginAttempts, s1, s2, s3, s4, s5]
  · rw [c1, s5]
  · intro pw t' ht'
    have hfind : List.find? (fun x => x.email == u.email && x.isActive)
        [{ u with failedLoginAttempts := 5, lockedUntil := some (t5 + lockMs) }]
        = some { u with failedLoginAttempts := 5, lockedUntil := some (t5 + lockMs) } :=
      List.find?_cons_of_pos _ (by simp [hact])
    unfold login
    rw [hfind]
    simp [ht']

/-- Witness for C4: five failed attempts against the fixture admin lock the
account at the fifth attempt's time plus 30 minutes. -/
theorem login_lockout_after_five_witness :
    loginAttempts cmpNever macZero "s" uA.email "bad" false [1, 2, 3, 4, 5] [uA]
      = [{ uA with failedLoginAttempts := 5, lockedUntil := some (5 + lockMs) }] :=
  (login_lockout_after_five cmpNever macZero "s" uA "bad" 1 2 3 4 5 false
    rfl rfl rfl rfl).2.1

/-- Claim C5: a successful login (account found active by email, no
still-running lock, password accepted) resets the failed-attempt counter to 0,
clears the lock, stamps the last-login time, and issues a signed token whose
payload embeds the account id, email, role and first/last name, expiring 24
hours from now, or 30 days when rememberMe is set. -/
theorem login_success_spec (compare : String → String → Bool)
    (mac : String → TokenPayload → Nat) (secret : String) (now : Nat)
    (users : List AdminUser) (email pw : String) (rm : Bool) (u : AdminUser)
    (hfind : users.find? (fun x => x.email == email && x.isActive) = some u)
    (hnl : ∀ t, u.lockedUntil = some t → t ≤ now)
    (hgood : compare pw u.passwordHash = true) :
    login compare mac secret now users email pw rm =
      (.success (generateToken mac secret u rm now) (if rm then "30d" else "24h"),
       users.map (fun x =>
         if x.id == u.id then
           { x with failedLoginAttempts := 0, lockedUntil := none, lastLoginAt := some now }
         else x))
    ∧ (generateToken mac secret u rm now).payload.id = u.id
    ∧ (generateToken mac secret u rm now).payload.email = u.email
    ∧ (generateToken mac secret u rm now).payload.role = u.role
    ∧ (generateToken mac secret u rm now).payload.firstName = u.firstName
    ∧ (generateToken mac secret u rm now).payload.lastName = u.lastName
    ∧ (generateToken mac secret u rm now).payload.exp
        = now + (if rm then thirtyDaysMs else dayMs)
    ∧ (generateToken mac secret u rm now).sig
        = mac secret (generateToken mac secret u rm now).payload := by
  refine ⟨?_, rfl, rfl, rfl, rfl, rfl, rfl, rfl⟩
  unfold login
  rw [hfind]
  cases hLU : u.lockedUntil with
  | none => simp [hLU, loginAfterLockCheck, hgood]
  | some t =>
    have ht : ¬ now < t := Nat.not_lt.mpr (hnl t hLU)
    simp [hLU, ht, loginAfterLockCheck, hgood]

/-- Witness for C5: logging the fixture admin in with the stored password
issues a 24-hour token. -/
theorem login_success_spec_witness :
    (login cmpEq macZero "s" 100 [uA] uA.email "pw" false).1
      = .success (generateToken macZero "s" uA false 100) "24h" :=
  congrArg Prod.fst ((login_success_spec cmpEq macZero "s" 100 [uA] uA.email "pw" false uA
    (by decide) (fun t ht => by simp [uA] at ht) (by decide)).1)

/-- Claim C10: when the counter already reached 5 and the lock has expired, the
counter is not reset by the expiry: one more failed attempt stores counter 6
and re-locks for another 30 minutes, while a correct password logs in and
resets the counter to 0 and the lock to null. -/
theorem lock_expiry_no_reset (compare : String → String → Bool)
    (mac : String → TokenPayload → Nat) (secret : String) (now : Nat)
    (users : List AdminUser) (email pw : String) (rm : Bool) (u : AdminUser) (tL : Nat)
    (hfind : users.find? (fun x => x.email == email && x.isActive) = some u)
    (h5 : u.failedLoginAttempts = 5)
    (hlock : u.lockedUntil = some tL) (hexp : tL ≤ now) :
    (compare pw u.passwordHash = false →
      login compare mac secret now users email pw rm =
        (.invalidCredentials true,
         users.map (fun x =>
           if x.id == u.id then
             { x with failedLoginAttempts := 6, lockedUntil := some (now + lockMs) }
           else x)))
    ∧ (compare pw u.passwordHash = true →
      login compare mac secret now users email pw rm =
        (.success (generateToken mac secret u rm now) (if rm then "30d" else "24h"),
         users.map (fun x =>
           if x.id == u.id then
             { x with failedLoginAttempts := 0, lockedUntil := none, lastLoginAt := some now }
           else x))) := by
  constructor
  · intro hbad
    unfold login
    rw [hfind]
    have hnlt : ¬ now < tL := by omega
    simp [hlock, hnlt, loginAfterLockCheck, hbad, h5]
  · intro hgood
    unfold login
    rw [hfind]
    have hnlt : ¬ now < tL := by omega
    simp [hlock, hnlt, loginAfterLockCheck, hgood]

/-- Witness for C10: the fixture admin at counter 5 with an expired lock fails
another attempt and is answered with the lock-flavored InvalidCredentials. -/
theorem lock_expiry_no_reset_witness :
    (login cmpNever macZero "s" 100 [uC] uC.email "x" false).1
      = .invalidCredentials true :=
  congrArg Prod.fst ((lock_expiry_no_reset cmpNever macZero "s" 100 [uC] uC.email "x"
    false uC 50 (by decide) rfl rfl (by decide)).1 rfl)

/-- Claim C8: the token middleware accepts only a well-signed, unexpired token
whose account still exists and is active — an undecodable or wrongly-signed
token fails with InvalidToken, a well-signed expired token with TokenExpired,
and a well-signed unexpired token whose account is missing or deactivated with
UserNotFound; a success yields exactly such an account. -/
theorem authenticateToken_spec (mac : String → TokenPayload → Nat) (secret : String)
    (now : Nat) (users : List AdminUser) :
    authenticateToken mac secret now users .malformed = .invalidToken
    ∧ authenticateToken mac secret now users .missing = .tokenRequired
    ∧ (∀ t : SignedToken, t.sig ≠ mac secret t.payload →
        authenticateToken mac secret now users (.signedTok t) = .invalidToken)
    ∧ (∀ t : SignedToken, t.sig = mac secret t.payload → t.payload.exp ≤ now →
        authenticateToken mac secret now users (.signedTok t) = .tokenExpired)
    ∧ (∀ t : SignedToken, t.sig = mac secret t.payload → now < t.payload.exp →
        users.find? (fun u => u.id == t.payload.id && u.isActive) = none →
        authenticateToken mac secret now users (.signedTok t) = .userNotFound)
    ∧ (∀ t u texp, authenticateToken mac secret now users (.signedTok t) = .ok u texp →
        t.sig = mac secret t.payload ∧ now < t.payload.exp ∧ u ∈ users ∧
        u.id = t.payload.id ∧ u.isActive = true ∧ texp = t.payload.exp) := by
  refine ⟨rfl, rfl, ?_, ?_, ?_, ?_⟩
  · intro t hs
    simp [authenticateToken, hs]
  · intro t hs hexp
    simp [authenticateToken, hs, hexp]
  · intro t hs hexp hnone
    simp [authenticateToken, hs, Nat.not_le.mpr hexp, hnone]
  · intro t u texp h
    simp only [authenticateToken] at h
    split at h
    · cases h
    · next hsig =>
      split at h
      · cases h
      · next hexp =>
        split at h
        · cases h
        · next u0 hfind =>
          injection h with h1 h2
          subst h1
          subst h2
          have hp := List.find?_some hfind
          simp only [Bool.and_eq_true, beq_iff_eq] at hp
          exact ⟨not_not.mp hsig, Nat.not_le.mp hexp,
            List.mem_of_find?_eq_some hfind, hp.1, hp.2, rfl⟩

/-- Witness for C8: an undecodable token is rejected as InvalidToken. -/
theorem authenticateToken_spec_witness :
    authenticateToken macZero "s" 0 [] .malformed = .invalidToken :=
  (authenticateToken_spec macZero "s" 0 []).1

end HairByRhi
